import Mathlib

/-!
Shallow embedding of the cursor-manager backend core (Python source under
`backend/`): the settings merge, the scheduler sync, the event log, the
batch-operation engine, and the native-messaging dispatcher.  Python dicts
holding parsed JSON are modelled by the inductive `Json` below; Python
`None` coincides with JSON `null`, so `dict.get` is modelled as returning
`Json.null` for a missing key.  Database rows mutated through SQL UPDATE
statements are modelled as record updates; thrown Python exceptions are
modelled with `Except String`.
-/

/-- JSON values as produced by `json.loads`; `obj` keeps the field list in
insertion order, mirroring a Python dict. -/
inductive Json where
  | null : Json
  | bool (b : Bool) : Json
  | num (n : Int) : Json
  | str (s : String) : Json
  | arr (xs : List Json) : Json
  | obj (fields : List (String × Json)) : Json

namespace Json

/-- Python truthiness of a parsed-JSON value (`if not x`). -/
def truthy : Json → Bool
  | .null => false
  | .bool b => b
  | .num n => n != 0
  | .str s => !(decide (s = ""))
  | .arr xs => !xs.isEmpty
  | .obj fs => !fs.isEmpty

/-- Python identity test `value is None` on a parsed-JSON value. -/
def isNull : Json → Bool
  | .null => true
  | _ => false

end Json

/-- Lookup of a key in a field list, first occurrence wins (Python dict keys
are unique; an association list with unique keys models one). -/
def lookupJ : List (String × Json) → String → Option Json
  | [], _ => none
  | (k, v) :: rest, key => if k = key then some v else lookupJ rest key

/-- Python `dict.get(key)`: a missing key yields `None`, and JSON `null`
loads as `None`, so both collapse to `Json.null`. -/
def jGet (fields : List (String × Json)) (key : String) : Json :=
  match lookupJ fields key with
  | some v => v
  | none => Json.null

/-- Python dict assignment `d[k] = v`: replace the binding in place when the
key exists, append it otherwise. -/
def setKey : List (String × Json) → String → Json → List (String × Json)
  | [], key, v => [(key, v)]
  | (k, w) :: rest, key, v =>
      if k = key then (key, v) :: rest else (k, w) :: setKey rest key v

/-- Key set `set(base.keys()) | set(incoming.keys())` of `_merge_dicts`,
realised as base keys followed by the incoming-only keys (the Python set
iteration order is unspecified; only per-key values matter to callers). -/
def unionKeys (base incoming : List (String × Json)) : List String :=
  (base.map Prod.fst) ++
    ((incoming.map Prod.fst).filter (fun k => decide (k ∉ base.map Prod.fst)))

theorem sizeOf_lookupJ {fs : List (String × Json)} {k : String} {v : Json}
    (h : lookupJ fs k = some v) : sizeOf v < sizeOf fs := by
  induction fs with
  | nil => simp [lookupJ] at h
  | cons p rest ih =>
    obtain ⟨k', v'⟩ := p
    by_cases hk : k' = k
    · simp [lookupJ, hk] at h
      subst h
      simp
      omega
    · simp [lookupJ, hk] at h
      have := ih h
      simp
      omega

/-- Non-recursive arm of the `_merge_dicts` loop body: a non-None incoming
value wins (`elif incoming_value is not None`) and a None/missing incoming
value keeps the base value (`else` branch); `dict.get` of a missing key
yields None, written `Json.null` here. -/
def mergeScalar (bv iv : Option Json) : Json :=
  let ivv := match iv with | some v => v | none => Json.null
  if ivv.isNull then match bv with | some v => v | none => Json.null
  else ivv

/-- Recursive dictionary merge `SettingsManager._merge_dicts`, unravelled
over an explicit key list: for each key, two nested dicts merge recursively,
otherwise `mergeScalar` decides between the incoming and the base value. -/
def mergeGo (base incoming : List (String × Json)) :
    List String → List (String × Json)
  | [] => []
  | k :: ks =>
      let merged :=
        match hb : lookupJ base k, hi : lookupJ incoming k with
        | some (Json.obj bo), some (Json.obj io) =>
            Json.obj (mergeGo bo io (unionKeys bo io))
        | bv, iv => mergeScalar bv iv
      (k, merged) :: mergeGo base incoming ks
termination_by ks => (sizeOf base + sizeOf incoming, ks.length)
decreasing_by
  · have h1 := sizeOf_lookupJ hb
    have h2 := sizeOf_lookupJ hi
    simp at h1 h2
    apply Prod.Lex.left
    omega
  · apply Prod.Lex.right
    simp only [List.length_cons]
    omega

/-- The merge `_merge_dicts(base, incoming)` of the settings manager. -/
def merge_dicts (base incoming : List (String × Json)) : List (String × Json) :=
  mergeGo base incoming (unionKeys base incoming)

/-- Per-key combination performed by `_merge_dicts` (derived view used to
state its correctness): values come through `dict.get`. -/
def mergeVal (bv iv : Option Json) : Json :=
  match bv, iv with
  | some (Json.obj bo), some (Json.obj io) => Json.obj (merge_dicts bo io)
  | bv, iv => mergeScalar bv iv

/-- `SettingsManager.get_section`: a copy of the named section when it is a
dict, an empty dict otherwise. -/
def get_section (data : List (String × Json)) (sect : String) :
    List (String × Json) :=
  match lookupJ data sect with
  | some (Json.obj fields) => fields
  | _ => []

/-- `SettingsManager.update_section`: recursively merge `updates` into the
stored section (an empty dict when missing or not a dict) and store the
merged section back into the settings document. -/
def update_section (data : List (String × Json)) (sect : String)
    (updates : List (String × Json)) : List (String × Json) :=
  let base :=
    match lookupJ data sect with
    | some (Json.obj fields) => fields
    | _ => []
  let merged := merge_dicts base updates
  setKey data sect (Json.obj merged)

theorem mem_unionKeys {base incoming : List (String × Json)} {key : String} :
    key ∈ unionKeys base incoming ↔
      key ∈ base.map Prod.fst ∨ key ∈ incoming.map Prod.fst := by
  simp only [unionKeys, List.mem_append, List.mem_filter, decide_eq_true_iff]
  constructor
  · rintro (h | ⟨h, _⟩)
    · exact Or.inl h
    · exact Or.inr h
  · intro h
    by_cases hb : key ∈ base.map Prod.fst
    · exact Or.inl hb
    · rcases h with h | h
      · exact absurd h hb
      · exact Or.inr ⟨h, hb⟩

theorem lookupJ_eq_none {fs : List (String × Json)} {key : String} :
    lookupJ fs key = none ↔ key ∉ fs.map Prod.fst := by
  induction fs with
  | nil => simp [lookupJ]
  | cons p rest ih =>
    obtain ⟨k, v⟩ := p
    by_cases hk : k = key
    · subst hk
      simp [lookupJ]
    · simp [lookupJ, hk, ih, Ne.symm hk]

theorem lookupJ_setKey (fs : List (String × Json)) (key : String) (v : Json)
    (k : String) :
    lookupJ (setKey fs key v) k = if k = key then some v else lookupJ fs k := by
  induction fs with
  | nil =>
    by_cases h : key = k
    · subst h
      simp [setKey, lookupJ]
    · have h' : ¬k = key := fun hh => h hh.symm
      simp [setKey, lookupJ, h, h']
  | cons p rest ih =>
    obtain ⟨k', w⟩ := p
    by_cases h1 : k' = key
    · subst h1
      by_cases h2 : k' = k
      · subst h2
        simp [setKey, lookupJ]
      · have h2' : ¬k = k' := fun hh => h2 hh.symm
        simp [setKey, lookupJ, h2, h2']
    · by_cases h2 : k' = k
      · subst h2
        simp [setKey, lookupJ, h1]
      · simp [setKey, lookupJ, h1, h2, ih]

theorem mergeGo_eq_map (base incoming : List (String × Json)) :
    ∀ ks : List String,
      mergeGo base incoming ks =
        ks.map (fun k => (k, mergeVal (lookupJ base k) (lookupJ incoming k)))
  | [] => by
      rw [mergeGo]
      simp
  | k :: ks => by
      rw [mergeGo]
      rw [mergeGo_eq_map base incoming ks]
      simp only [List.map_cons, List.cons.injEq, and_true, Prod.mk.injEq,
        true_and]
      split
      · rename_i bo io hb hi
        rw [hb, hi]
        simp [mergeVal, merge_dicts]
      · rename_i hne
        unfold mergeVal
        split
        · rename_i hb hi
          exact absurd hi (by simp_all)
        · rfl

theorem lookupJ_map_val (f : String → Json) (key : String) :
    ∀ ks : List String,
      lookupJ (ks.map (fun k => (k, f k))) key =
        if key ∈ ks then some (f key) else none := by
  intro ks
  induction ks with
  | nil => simp [lookupJ]
  | cons k rest ih =>
    by_cases h : k = key
    · subst h
      simp [lookupJ]
    · simp [lookupJ, h, ih, Ne.symm h]

/-- Per-key reading of the recursive merge: a key of the result is a key of
either input, and its value combines the two looked-up values as the source
loop body does. -/
theorem lookupJ_merge_dicts (base incoming : List (String × Json))
    (key : String) :
    lookupJ (merge_dicts base incoming) key =
      if key ∈ base.map Prod.fst ∨ key ∈ incoming.map Prod.fst then
        some (mergeVal (lookupJ base key) (lookupJ incoming key))
      else none := by
  rw [merge_dicts, mergeGo_eq_map,
    lookupJ_map_val (fun k => mergeVal (lookupJ base k) (lookupJ incoming k))]
  by_cases h : key ∈ unionKeys base incoming
  · rw [if_pos h, if_pos (mem_unionKeys.mp h)]
  · rw [if_neg h, if_neg (fun hh => h (mem_unionKeys.mpr hh))]

/-- Settings document of the C5 scenario: a scheduler section holding jobs
`a` (enabled, interval 5) and `b`. -/
def schedStore : List (String × Json) :=
  [("scheduler", Json.obj
    [("enabled", Json.bool true),
     ("jobs", Json.obj
       [("a", Json.obj
          [("enabled", Json.bool true), ("interval_minutes", Json.num 5)]),
        ("b", Json.obj
          [("enabled", Json.bool false), ("interval_minutes", Json.num 7)])])])]

/-- Update document of the C5 scenario. -/
def schedUpdates : List (String × Json) :=
  [("jobs", Json.obj [("a", Json.obj [("enabled", Json.bool false)])])]

/-- C5: `update_section` stores back the recursive key-by-key merge of the
named section with the update document; in the merge, nested dicts merge
recursively per key, a missing or None incoming value keeps the base value,
and a non-None incoming value replaces it; on the scheduler example only
key `enabled` of job `a` changes, its `interval_minutes` and the whole job
`b` are preserved. -/
theorem c5_update_section_recursive_merge :
    (∀ (data : List (String × Json)) (sect : String)
        (updates : List (String × Json)) (key : String),
        lookupJ (update_section data sect updates) key =
          if key = sect then
            some (Json.obj (merge_dicts (get_section data sect) updates))
          else lookupJ data key)
    ∧ (∀ (base incoming : List (String × Json)) (key : String),
        lookupJ (merge_dicts base incoming) key =
          if key ∈ base.map Prod.fst ∨ key ∈ incoming.map Prod.fst then
            some (mergeVal (lookupJ base key) (lookupJ incoming key))
          else none)
    ∧ (∀ bv : Option Json,
        mergeVal bv none =
          (match bv with | some v => v | none => Json.null)
        ∧ mergeVal bv (some Json.null) =
          (match bv with | some v => v | none => Json.null)
        ∧ ∀ v : Json, v.isNull = false → mergeScalar bv (some v) = v)
    ∧ update_section schedStore "scheduler" schedUpdates =
        [("scheduler", Json.obj
          [("enabled", Json.bool true),
           ("jobs", Json.obj
             [("a", Json.obj
                [("enabled", Json.bool false),
                 ("interval_minutes", Json.num 5)]),
              ("b", Json.obj
                [("enabled", Json.bool false),
                 ("interval_minutes", Json.num 7)])])])] := by
  refine ⟨?_, ?_, ?_, ?_⟩
  · intro data sect updates key
    rw [update_section, lookupJ_setKey]
    by_cases h : key = sect
    · subst h
      simp [get_section]
    · simp [h]
  · intro base incoming key
    exact lookupJ_merge_dicts base incoming key
  · intro bv
    refine ⟨?_, ?_, ?_⟩
    · cases bv with
      | none => rfl
      | some v => cases v <;> rfl
    · cases bv with
      | none => rfl
      | some v => cases v <;> rfl
    · intro v hv
      cases v <;> simp [mergeScalar, Json.isNull] at hv ⊢
  · simp [update_section, schedStore, schedUpdates, lookupJ, get_section,
      setKey, merge_dicts, unionKeys, mergeGo, mergeVal, mergeScalar,
      Json.isNull]

/-- Row of the `sync_events` table as written by `EventService.record_event`
(the payload is stored already JSON-serialised; `json.dumps` is abstracted). -/
structure SyncEvent where
  id : Nat
  entity_type : String
  entity_id : Option Int
  action : String
  source : String
  payload : Option String
  created_at : Nat
deriving DecidableEq, Repr

/-- Modelled from the spec: the `sync_events` table is created nowhere in
`database._init_schema`, so its storage is taken from the spec data model —
SyncEvent rows are append-only with strictly increasing server-assigned ids
(SQLite rowids on an append-only table), held here in insertion order
together with the next id the engine will assign. -/
structure EventLog where
  rows : List SyncEvent
  nextId : Nat
deriving DecidableEq, Repr

/-- `EventService.record_event`: appends one row and returns the assigned
`cursor.lastrowid`. -/
def record_event (log : EventLog) (entity_type : String) (action : String)
    (entity_id : Option Int) (payload : Option String) (source : String)
    (now : Nat) : EventLog × Nat :=
  let e : SyncEvent :=
    { id := log.nextId, entity_type := entity_type, entity_id := entity_id,
      action := action, source := source, payload := payload,
      created_at := now }
  ({ rows := log.rows ++ [e], nextId := log.nextId + 1 }, log.nextId)

/-- `EventService.get_events`: a non-positive limit is remapped to 50, a
truthy `after_id` adds the `id > after_id` filter (Python truthiness: `None`
and `0` add no filter), rows come back in ascending id order capped at
`limit`, and `last_id` is the last returned id, else the `after_id`
argument. -/
def get_events (log : EventLog) (after_id : Option Int) (limit : Int) :
    List SyncEvent × Option Int :=
  let lim : Int := if limit ≤ 0 then 50 else limit
  let filtered : List SyncEvent :=
    match after_id with
    | some a =>
        if a ≠ 0 then log.rows.filter (fun e => decide (a < (e.id : Int)))
        else log.rows
    | none => log.rows
  let events := filtered.take lim.toNat
  let last_id : Option Int :=
    match events.getLast? with
    | some e => some (e.id : Int)
    | none => after_id
  (events, last_id)

/-- `EventService.prune`: delete events whose `created_at` lies before the
retention cutoff (the SQL `datetime` arithmetic is abstracted into the
`cutoff` argument) and report how many rows went away. -/
def prune (log : EventLog) (cutoff : Nat) : EventLog × Nat :=
  let kept := log.rows.filter (fun e => decide (cutoff ≤ e.created_at))
  ({ log with rows := kept }, log.rows.length - kept.length)

/-- Tables created by `Database._init_schema`, in source order. -/
def init_schema_tables : List String :=
  ["_metadata", "accounts", "cards", "bypass_tests", "bypass_results",
   "pro_trials", "batch_operations"]

/-- Database handle: the set of existing tables plus the event-log storage
(present only when its table exists). -/
structure Db where
  tables : List String
  events : EventLog

/-- Database freshly initialised by `_init_schema`. -/
def freshDb : Db :=
  { tables := init_schema_tables, events := { rows := [], nextId := 1 } }

/-- SQLite raises `OperationalError: no such table` when a statement names a
table the schema never created. -/
def requireTable (db : Db) (t : String) : Except String Unit :=
  if db.tables.contains t then Except.ok ()
  else Except.error ("no such table: " ++ t)

/-- `record_event` as executed against a database: the INSERT touches
`sync_events` and surfaces the storage error when the table is missing. -/
def record_event_sql (db : Db) (entity_type : String) (action : String)
    (entity_id : Option Int) (payload : Option String) (source : String)
    (now : Nat) : Except String (Db × Nat) :=
  match requireTable db "sync_events" with
  | Except.error e => Except.error e
  | Except.ok _ =>
      let (log2, eid) :=
        record_event db.events entity_type action entity_id payload source now
      Except.ok ({ db with events := log2 }, eid)

/-- `get_events` as executed against a database: the SELECT touches
`sync_events` and surfaces the storage error when the table is missing. -/
def get_events_sql (db : Db) (after_id : Option Int) (limit : Int) :
    Except String (List SyncEvent × Option Int) :=
  match requireTable db "sync_events" with
  | Except.error e => Except.error e
  | Except.ok _ => Except.ok (get_events db.events after_id limit)

/-- `prune` as executed against a database: the DELETE touches `sync_events`
and surfaces the storage error when the table is missing. -/
def prune_sql (db : Db) (cutoff : Nat) : Except String (Db × Nat) :=
  match requireTable db "sync_events" with
  | Except.error e => Except.error e
  | Except.ok _ =>
      let (log2, n) := prune db.events cutoff
      Except.ok ({ db with events := log2 }, n)

/-- State of `SchedulerService`: the shared settings document, the ids of
the registered job factories (their callbacks are opaque collaborator
handlers), and the ids of the currently scheduled timers
(`_scheduled_jobs`). -/
structure SchedulerState where
  settings : List (String × Json)
  factories : List String
  scheduled : List String

/-- One pass of `_sync_jobs_from_settings`: every existing timer is removed,
then, unless the scheduler is globally disabled, one timer is recreated for
each enabled job that has a registered factory (the interval computation
feeds only the timer period and is not tracked here; a job config that is
not a dict would raise in the source and no claim exercises it, it is
treated as disabled). -/
def sync_jobs_from_settings (st : SchedulerState) : SchedulerState :=
  let sect := get_section st.settings "scheduler"
  let enabledJ :=
    match lookupJ sect "enabled" with
    | some v => v
    | none => Json.bool true
  if !enabledJ.truthy then { st with scheduled := [] }
  else
    let jobsCfg :=
      match lookupJ sect "jobs" with
      | some (Json.obj j) => j
      | _ => []
    let ids := (jobsCfg.filter (fun kv =>
      (match kv.2 with
       | Json.obj cfg => (jGet cfg "enabled").truthy
       | _ => false)
      && st.factories.contains kv.1)).map Prod.fst
  { st with scheduled := ids }

/-- `SchedulerService.set_enabled`: persist the global flag into the
`scheduler` settings section, then fully rebuild the schedule; returns the
new state together with the section the source returns to its caller. -/
def set_enabled (st : SchedulerState) (enabled : Bool) :
    SchedulerState × List (String × Json) :=
  let settings2 :=
    update_section st.settings "scheduler" [("enabled", Json.bool enabled)]
  let st2 := sync_jobs_from_settings { st with settings := settings2 }
  (st2, get_section st2.settings "scheduler")

/-- Invocation of one job callback: the callback may append to the event
log through the services it calls and may raise; appends made before a
raise stay committed. -/
def JobCallback : Type :=
  List SyncEvent → Except String Unit × List SyncEvent

/-- Wrapper `_safe_wrapper` placed around every scheduled callback: the
call happens inside `try`, any exception is caught and written to the
process log (`logger.exception`), and nothing else happens — the wrapper
itself never touches the event log and never re-raises. -/
def safe_wrapper (job_callback : JobCallback) (events : List SyncEvent) :
    Except String Unit × List SyncEvent :=
  match job_callback events with
  | (Except.ok _, es) => (Except.ok (), es)
  | (Except.error _, es) => (Except.ok (), es)

/-- Job callback of the C3 counterexample: raises without having appended
anything. -/
def failingJob : JobCallback :=
  fun es => (Except.error "boom", es)

/-- Characters Python `str.strip` removes (ASCII whitespace). -/
def pyIsSpace (c : Char) : Bool :=
  c == ' ' || c == '\t' || c == '\n' || c == '\r' || c == '\x0b' || c == '\x0c'

/-- Python `str.strip()`: drop leading and trailing whitespace (written
over the character list so that concrete runs evaluate). -/
def pyStrip (s : String) : String :=
  String.mk (((s.data.dropWhile pyIsSpace).reverse.dropWhile
    pyIsSpace).reverse)

/-- Python `str.startswith(p)` (written over the character list so that
concrete runs evaluate). -/
def strStartsWith (s p : String) : Bool :=
  p.data.isPrefixOf s.data

/-- Row of the `batch_operations` table: `completed_items` and
`failed_items` start at their column DEFAULT 0 and change only through
`_update_batch_progress`; `writes` is a ghost trace of the successive
(completed, failed) pairs that UPDATE persisted, recording what an external
progress poll could observe mid-run. -/
structure BatchRow where
  operation_type : String
  total_items : Nat
  completed_items : Nat
  failed_items : Nat
  status : String
  error_log : Option String
  completed_at : Bool
  writes : List (Nat × Nat)
deriving DecidableEq, Repr

/-- `BatchService._create_batch_operation`: INSERT with `status='running'`
and the column defaults. -/
def _create_batch_operation (operation_type : String) (total_items : Nat) :
    BatchRow :=
  { operation_type := operation_type, total_items := total_items,
    completed_items := 0, failed_items := 0, status := "running",
    error_log := none, completed_at := false, writes := [] }

/-- `BatchService._update_batch_progress`: UPDATE of the two progress
columns, appended to the observation trace. -/
def _update_batch_progress (row : BatchRow) (completed failed : Nat) :
    BatchRow :=
  { row with completed_items := completed, failed_items := failed,
             writes := row.writes ++ [(completed, failed)] }

/-- `BatchService._complete_batch_operation`: UPDATE of status, error log
and the completion timestamp (kept as a flag). -/
def _complete_batch_operation (row : BatchRow) (status : String)
    (errors : List String) : BatchRow :=
  { row with status := status,
             error_log :=
               if errors.isEmpty then none
               else some (String.intercalate "\n" errors),
             completed_at := true }

/-- Python-local loop state shared by the four batch loops: the success
counter (`created_count`/`deleted_count`/`updated_count`), `failed_count`,
`errors`, and the persisted row. -/
structure LoopState where
  counted : Nat
  failed : Nat
  errors : List String
  row : BatchRow
deriving DecidableEq, Repr

/-- Value a batch method returns (its result dict): `counted` stands for
the `created`/`deleted`/`updated` entry. -/
structure BatchResult where
  success : Bool
  row : BatchRow
  counted : Nat
  failed : Nat
  errors : List String
  total : Nat
deriving DecidableEq, Repr

/-- Tail shared verbatim by the four batch methods: decide the final status
from `failed_count`, complete the row, and build the result dict. -/
def finishBatch (s : LoopState) (total : Nat) : BatchResult :=
  let row2 := _complete_batch_operation s.row
    (if s.failed = 0 then "completed" else "partial_success") s.errors
  { success := true, row := row2, counted := s.counted, failed := s.failed,
    errors := s.errors, total := total }

/-- Loop body of `batch_delete_accounts`: `account_service.delete` is the
opaque collaborator; on success count and persist progress, on exception
count the failure, append one error line and persist progress. -/
def deleteStep (delete : Int → Except String Unit) (s : LoopState)
    (account_id : Int) : LoopState :=
  match delete account_id with
  | Except.ok _ =>
      let d := s.counted + 1
      { s with counted := d, row := _update_batch_progress s.row d s.failed }
  | Except.error e =>
      let f := s.failed + 1
      { s with failed := f,
               errors := s.errors ++
                 ["Account ID " ++ toString account_id ++ ": " ++ e],
               row := _update_batch_progress s.row s.counted f }

/-- `BatchService.batch_delete_accounts`. -/
def batch_delete_accounts (delete : Int → Except String Unit)
    (account_ids : List Int) : BatchResult :=
  let row0 := _create_batch_operation "delete_accounts" account_ids.length
  let s := account_ids.foldl (deleteStep delete)
    { counted := 0, failed := 0, errors := [], row := row0 }
  finishBatch s account_ids.length

/-- Loop body of `batch_update_status`: like the delete loop, with
`account_service.update` as the opaque collaborator. -/
def updateStatusStep (update : Int → String → Except String Unit)
    (status : String) (s : LoopState) (account_id : Int) : LoopState :=
  match update account_id status with
  | Except.ok _ =>
      let u := s.counted + 1
      { s with counted := u, row := _update_batch_progress s.row u s.failed }
  | Except.error e =>
      let f := s.failed + 1
      { s with failed := f,
               errors := s.errors ++
                 ["Account ID " ++ toString account_id ++ ": " ++ e],
               row := _update_batch_progress s.row s.counted f }

/-- `BatchService.batch_update_status`. -/
def batch_update_status (update : Int → String → Except String Unit)
    (account_ids : List Int) (status : String) : BatchResult :=
  let row0 := _create_batch_operation "update_status" account_ids.length
  let s := account_ids.foldl (updateStatusStep update status)
    { counted := 0, failed := 0, errors := [], row := row0 }
  finishBatch s account_ids.length

/-- One item of `batch_create_accounts`: the fields the loop itself reads
(`email`, `cookies`); everything else is consumed only by the collaborator
`account_service.create`. -/
structure AccountData where
  email : Option String
  password : Option String
  cookies : Option String
deriving DecidableEq, Repr

/-- Python truthiness of an optional string (`not cookies`). -/
def optTruthy : Option String → Bool
  | none => false
  | some s => !(decide (s = ""))

/-- Loop body of `batch_create_accounts`: a missing email and missing
cookies is counted as a failure and `continue`d past — skipping the
progress UPDATE — otherwise the collaborator `create` runs and progress is
persisted on both its outcomes. -/
def createAccountsStep (create : AccountData → Except String Unit)
    (s : LoopState) (ia : Nat × AccountData) : LoopState :=
  let idx := ia.1
  let a := ia.2
  let email := pyStrip (a.email.getD "")
  if decide (email = "") && !optTruthy a.cookies then
    { s with failed := s.failed + 1,
             errors := s.errors ++
               ["Account " ++ toString (idx + 1) ++
                ": Missing email or cookies"] }
  else
    match create a with
    | Except.ok _ =>
        let c := s.counted + 1
        { s with counted := c,
                 row := _update_batch_progress s.row c s.failed }
    | Except.error e =>
        let f := s.failed + 1
        { s with failed := f,
                 errors := s.errors ++
                   ["Account " ++ toString (idx + 1) ++ " (" ++ email ++
                    "): " ++ e],
                 row := _update_batch_progress s.row s.counted f }

/-- `BatchService.batch_create_accounts` (`enumerate` becomes `List.enum`). -/
def batch_create_accounts (create : AccountData → Except String Unit)
    (accounts_data : List AccountData) : BatchResult :=
  let row0 := _create_batch_operation "create_accounts" accounts_data.length
  let s := accounts_data.enum.foldl (createAccountsStep create)
    { counted := 0, failed := 0, errors := [], row := row0 }
  finishBatch s accounts_data.length

/-- One item of `batch_create_cards`: the loop itself reads only
`card_number`; the rest feeds the collaborator `cards_service.create`. -/
structure CardData where
  card_number : Option String
  card_holder : Option String
  expiry : Option String
  cvv : Option String
deriving DecidableEq, Repr

/-- Loop body of `batch_create_cards`: a missing card number is counted as
a failure and `continue`d past — skipping the progress UPDATE — otherwise
the collaborator runs and progress is persisted on both its outcomes. -/
def createCardsStep (create : CardData → Except String Unit)
    (s : LoopState) (ic : Nat × CardData) : LoopState :=
  let idx := ic.1
  let cdata := ic.2
  let card_number := pyStrip (cdata.card_number.getD "")
  if decide (card_number = "") then
    { s with failed := s.failed + 1,
             errors := s.errors ++
               ["Card " ++ toString (idx + 1) ++ ": Missing card number"] }
  else
    match create cdata with
    | Except.ok _ =>
        let c := s.counted + 1
        { s with counted := c,
                 row := _update_batch_progress s.row c s.failed }
    | Except.error e =>
        let f := s.failed + 1
        { s with failed := f,
                 errors := s.errors ++
                   ["Card " ++ toString (idx + 1) ++ ": " ++ e],
                 row := _update_batch_progress s.row s.counted f }

/-- `BatchService.batch_create_cards` (`enumerate` becomes `List.enum`). -/
def batch_create_cards (create : CardData → Except String Unit)
    (cards_data : List CardData) : BatchResult :=
  let row0 := _create_batch_operation "create_cards" cards_data.length
  let s := cards_data.enum.foldl (createCardsStep create)
    { counted := 0, failed := 0, errors := [], row := row0 }
  finishBatch s cards_data.length

/-- Little-endian decoding of the 4-byte length prefix,
`struct.unpack("I", raw_length)[0]`. -/
def unpackLE (b0 b1 b2 b3 : Nat) : Nat :=
  b0 + 256 * b1 + 65536 * b2 + 16777216 * b3

/-- Outcome of `NativeHost.read_message` over a byte stream: `eof` is the
`None` return for an empty length read, `errRead` is the exception a 1-3
byte length read raises out of `struct.unpack`, and `msg` carries the
declared length together with the bytes the subsequent
`sys.stdin.buffer.read(message_length)` consumes. -/
inductive ReadMsg where
  | eof : ReadMsg
  | errRead (e : String) : ReadMsg
  | msg (message_length : Nat) (body : List Nat) : ReadMsg
deriving DecidableEq, Repr

/-- `NativeHost.read_message`: read 4 length bytes (none at all means end
of stream), decode them little-endian, then read that many body bytes —
with no upper bound imposed on the declared length before the read. -/
def read_message (stdin : List Nat) : ReadMsg :=
  match stdin with
  | [] => ReadMsg.eof
  | b0 :: b1 :: b2 :: b3 :: rest =>
      let message_length := unpackLE b0 b1 b2 b3
      ReadMsg.msg message_length (rest.take message_length)
  | _ => ReadMsg.errRead "struct.error: unpack requires a buffer of 4 bytes"

/-- Error object of a JSON-RPC error response. -/
structure RpcError where
  code : Int
  message : String

/-- Response dict built by `handle_request`: it carries the request id and
either a `result` entry or an `error` entry. -/
structure Response where
  id : Json
  result : Option Json
  err : Option RpcError

/-- Service handlers the dispatcher routes to, one per method namespace;
each is an opaque collaborator that may raise. -/
structure Host where
  accounts : String → Json → Except String Json
  cards : String → Json → Except String Json
  generator : String → Json → Except String Json
  bypass : String → Json → Except String Json
  proTrial : String → Json → Except String Json
  exportSvc : String → Json → Except String Json
  importSvc : String → Json → Except String Json
  statusSvc : String → Json → Except String Json
  batch : String → Json → Except String Json
  system : String → Json → Except String Json

/-- Body of the `try` block of `handle_request`: route on the method
prefix, an unknown prefix raises `ValueError`, a non-string method raises
`AttributeError` at `method.startswith`. -/
def dispatch (host : Host) (method : Json) (params : Json) :
    Except String Json :=
  match method with
  | Json.str m =>
      if strStartsWith m "accounts." then host.accounts m params
      else if strStartsWith m "cards." then host.cards m params
      else if strStartsWith m "generator." then host.generator m params
      else if strStartsWith m "bypass." then host.bypass m params
      else if strStartsWith m "proTrial." then host.proTrial m params
      else if strStartsWith m "export." then host.exportSvc m params
      else if strStartsWith m "import." then host.importSvc m params
      else if strStartsWith m "status." then host.statusSvc m params
      else if strStartsWith m "batch." then host.batch m params
      else if strStartsWith m "system." then host.system m params
      else Except.error ("Unknown method: " ++ m)
  | _ => Except.error "AttributeError: startswith"

/-- `request.get("params", {})`. -/
def paramsOf (request : List (String × Json)) : Json :=
  match lookupJ request "params" with
  | some p => p
  | none => Json.obj []

/-- `NativeHost.handle_request`: every exception from the routed handler is
caught and turned into a `-32603` error response carrying the request id;
a successful call is wrapped as a result response with the same id. -/
def handle_request (host : Host) (request : List (String × Json)) :
    Response :=
  let request_id := jGet request "id"
  match dispatch host (jGet request "method") (paramsOf request) with
  | Except.ok r => { id := request_id, result := some r, err := none }
  | Except.error e =>
      { id := request_id, result := none,
        err := some { code := -32603, message := e } }

/-- Main loop `NativeHost.run` over the successfully framed and parsed
messages: each message is handled and its response sent before the next
read; a falsy message (`if not message`, an empty dict or the `None` of end
of stream) breaks the loop. -/
def runLoop (host : Host) : List (List (String × Json)) → List Response
  | [] => []
  | m :: rest =>
      if m.isEmpty then []
      else handle_request host m :: runLoop host rest

/-- Componentwise order between two persisted progress pairs. -/
def le2 (p q : Nat × Nat) : Prop := p.1 ≤ q.1 ∧ p.2 ≤ q.2

/-- Persisted snapshots of (completed_items, failed_items) an external poll
can observe: the column defaults (0, 0) followed by every UPDATE. -/
def snapshots (row : BatchRow) : List (Nat × Nat) := (0, 0) :: row.writes

/-- Invariant a batch loop maintains between its local counters and the
persisted row. -/
def RowInv (total : Nat) (s : LoopState) : Prop :=
  List.Pairwise le2 s.row.writes
  ∧ (∀ p ∈ s.row.writes, p.1 ≤ s.counted ∧ p.2 ≤ s.failed ∧ p.1 + p.2 ≤ total)
  ∧ s.row.completed_items ≤ s.counted
  ∧ s.row.failed_items ≤ s.failed
  ∧ s.row.completed_items + s.row.failed_items ≤ total

/-- Shape every batch loop body has: count a failure and continue without a
progress UPDATE (validation path), count a success and persist progress, or
count a caught exception with one error line and persist progress. -/
def StepOk {α : Type} (step : LoopState → α → LoopState) : Prop :=
  ∀ (s : LoopState) (a : α),
    (∃ e, step s a =
      { s with failed := s.failed + 1, errors := s.errors ++ [e] })
    ∨ (step s a =
      { s with counted := s.counted + 1,
               row := _update_batch_progress s.row (s.counted + 1) s.failed })
    ∨ (∃ e, step s a =
      { s with failed := s.failed + 1, errors := s.errors ++ [e],
               row := _update_batch_progress s.row s.counted (s.failed + 1) })

theorem stepOk_preserves {α : Type} {step : LoopState → α → LoopState}
    (hstep : StepOk step) (total : Nat) (s : LoopState) (a : α)
    (hle : s.counted + s.failed + 1 ≤ total) (hinv : RowInv total s) :
    RowInv total (step s a)
    ∧ (step s a).counted + (step s a).failed = s.counted + s.failed + 1
    ∧ s.counted ≤ (step s a).counted
    ∧ s.failed ≤ (step s a).failed
    ∧ (step s a).errors.length + s.failed
        = s.errors.length + (step s a).failed
    ∧ (step s a).row.status = s.row.status
    ∧ (step s a).row.completed_at = s.row.completed_at
    ∧ (step s a).row.total_items = s.row.total_items
    ∧ (step s a).row.operation_type = s.row.operation_type := by
  obtain ⟨hpw, hall, hc, hf, hsum⟩ := hinv
  rcases hstep s a with ⟨e, h⟩ | h | ⟨e, h⟩ <;> rw [h] <;> dsimp only
  · refine ⟨⟨hpw, ?_, hc, ?_, hsum⟩, ?_, ?_, ?_, ?_, rfl, rfl, rfl, rfl⟩
    · intro p hp
      exact ⟨(hall p hp).1, Nat.le_succ_of_le (hall p hp).2.1,
        (hall p hp).2.2⟩
    · exact Nat.le_succ_of_le hf
    · omega
    · omega
    · omega
    · simp only [List.length_append, List.length_singleton]
      omega
  · refine ⟨⟨?_, ?_, ?_, ?_, ?_⟩, ?_, ?_, ?_, ?_, rfl, rfl, rfl, rfl⟩
    · simp only [_update_batch_progress, List.pairwise_append]
      refine ⟨hpw, List.pairwise_singleton le2 _, ?_⟩
      intro p hp q hq
      simp only [List.mem_singleton] at hq
      subst hq
      exact ⟨Nat.le_succ_of_le (hall p hp).1, (hall p hp).2.1⟩
    · intro p hp
      simp only [_update_batch_progress, List.mem_append,
        List.mem_singleton] at hp
      rcases hp with hp | hp
      · exact ⟨Nat.le_succ_of_le (hall p hp).1, (hall p hp).2.1,
          (hall p hp).2.2⟩
      · subst hp
        exact ⟨Nat.le_refl _, Nat.le_refl _, by omega⟩
    · simp [_update_batch_progress]
    · simp [_update_batch_progress]
    · simp only [_update_batch_progress]
      omega
    · omega
    · omega
    · omega
    · rfl
  · refine ⟨⟨?_, ?_, ?_, ?_, ?_⟩, ?_, ?_, ?_, ?_, rfl, rfl, rfl, rfl⟩
    · simp only [_update_batch_progress, List.pairwise_append]
      refine ⟨hpw, List.pairwise_singleton le2 _, ?_⟩
      intro p hp q hq
      simp only [List.mem_singleton] at hq
      subst hq
      exact ⟨(hall p hp).1, Nat.le_succ_of_le (hall p hp).2.1⟩
    · intro p hp
      simp only [_update_batch_progress, List.mem_append,
        List.mem_singleton] at hp
      rcases hp with hp | hp
      · exact ⟨(hall p hp).1, Nat.le_succ_of_le (hall p hp).2.1,
          (hall p hp).2.2⟩
      · subst hp
        exact ⟨Nat.le_refl _, Nat.le_refl _, by omega⟩
    · simp [_update_batch_progress]
    · simp [_update_batch_progress]
    · simp only [_update_batch_progress]
      omega
    · omega
    · omega
    · omega
    · simp only [List.length_append, List.length_singleton]
      omega

theorem foldl_stepOk {α : Type} {step : LoopState → α → LoopState}
    (hstep : StepOk step) (total : Nat) :
    ∀ (items : List α) (s : LoopState),
      s.counted + s.failed + items.length ≤ total →
      RowInv total s →
      RowInv total (items.foldl step s)
      ∧ (items.foldl step s).counted + (items.foldl step s).failed
          = s.counted + s.failed + items.length
      ∧ s.counted ≤ (items.foldl step s).counted
      ∧ s.failed ≤ (items.foldl step s).failed
      ∧ (items.foldl step s).errors.length + s.failed
          = s.errors.length + (items.foldl step s).failed
      ∧ (items.foldl step s).row.status = s.row.status
      ∧ (items.foldl step s).row.completed_at = s.row.completed_at
      ∧ (items.foldl step s).row.total_items = s.row.total_items
      ∧ (items.foldl step s).row.operation_type = s.row.operation_type := by
  intro items
  induction items with
  | nil =>
    intro s hle hinv
    refine ⟨hinv, ?_, ?_, ?_, ?_, ?_, ?_, ?_, ?_⟩ <;> simp
  | cons a items ih =>
    intro s hle hinv
    simp only [List.length_cons] at hle
    have hone := stepOk_preserves hstep total s a (by omega) hinv
    obtain ⟨hinv1, hcnt1, hc1, hf1, herr1, hst1, hca1, hti1, hot1⟩ := hone
    have htail := ih (step s a) (by omega) hinv1
    obtain ⟨hinv2, hcnt2, hc2, hf2, herr2, hst2, hca2, hti2, hot2⟩ := htail
    simp only [List.foldl_cons, List.length_cons]
    exact ⟨hinv2, by omega, Nat.le_trans hc1 hc2, Nat.le_trans hf1 hf2,
      by omega, hst2.trans hst1, hca2.trans hca1, hti2.trans hti1,
      hot2.trans hot1⟩

theorem deleteStep_stepOk (delete : Int → Except String Unit) :
    StepOk (deleteStep delete) := by
  intro s a
  unfold deleteStep
  rcases delete a with e | u
  · exact Or.inr (Or.inr ⟨_, rfl⟩)
  · exact Or.inr (Or.inl rfl)

theorem updateStatusStep_stepOk (update : Int → String → Except String Unit)
    (status : String) : StepOk (updateStatusStep update status) := by
  intro s a
  unfold updateStatusStep
  rcases update a status with e | u
  · exact Or.inr (Or.inr ⟨_, rfl⟩)
  · exact Or.inr (Or.inl rfl)

theorem createAccountsStep_stepOk (create : AccountData → Except String Unit) :
    StepOk (createAccountsStep create) := by
  intro s ia
  unfold createAccountsStep
  by_cases hval :
      (decide (pyStrip (ia.2.email.getD "") = "")
        && !optTruthy ia.2.cookies) = true
  · rw [if_pos hval]
    exact Or.inl ⟨_, rfl⟩
  · rw [if_neg hval]
    rcases create ia.2 with e | u
    · exact Or.inr (Or.inr ⟨_, rfl⟩)
    · exact Or.inr (Or.inl rfl)

theorem createCardsStep_stepOk (create : CardData → Except String Unit) :
    StepOk (createCardsStep create) := by
  intro s ic
  unfold createCardsStep
  by_cases hval : (decide (pyStrip (ic.2.card_number.getD "") = "")) = true
  · rw [if_pos hval]
    exact Or.inl ⟨_, rfl⟩
  · rw [if_neg hval]
    rcases create ic.2 with e | u
    · exact Or.inr (Or.inr ⟨_, rfl⟩)
    · exact Or.inr (Or.inl rfl)

theorem rowInv_initial (op : String) (total : Nat) :
    RowInv total
      { counted := 0, failed := 0, errors := [],
        row := _create_batch_operation op total } := by
  refine ⟨List.Pairwise.nil, ?_, ?_, ?_, ?_⟩ <;>
    simp [_create_batch_operation]

/-- Facts shared by every finished batch run: progress snapshots are
componentwise monotone, bounded by the total, and the finalized result is
coherent. -/
theorem finishBatch_facts {α : Type} {step : LoopState → α → LoopState}
    (hstep : StepOk step) (op : String) (items : List α) :
    let s := items.foldl step
      { counted := 0, failed := 0, errors := [],
        row := _create_batch_operation op items.length }
    let r := finishBatch s items.length
    List.Pairwise le2 (snapshots r.row)
    ∧ (∀ p ∈ snapshots r.row, p.1 + p.2 ≤ r.row.total_items)
    ∧ r.counted + r.failed = items.length
    ∧ r.errors.length = r.failed
    ∧ (r.row.status = "completed" ↔ r.failed = 0)
    ∧ (r.row.status = "completed" ∨ r.row.status = "partial_success")
    ∧ r.row.completed_at = true
    ∧ r.row.total_items = items.length
    ∧ r.row.completed_items + r.row.failed_items ≤ items.length := by
  intro s r
  have h := foldl_stepOk hstep items.length items
    { counted := 0, failed := 0, errors := [],
      row := _create_batch_operation op items.length }
    (by simp) (rowInv_initial op items.length)
  obtain ⟨⟨hpw, hall, hc, hf, hsum⟩, hcnt, _, _, herr, _, _, hti0, _⟩ := h
  have hti : s.row.total_items = items.length := hti0
  have hcnt2 : s.counted + s.failed = 0 + 0 + items.length := hcnt
  have herr2 : s.errors.length + 0 = 0 + s.failed := herr
  refine ⟨?_, ?_, ?_, ?_, ?_, ?_, ?_, ?_, ?_⟩
  · show List.Pairwise le2 ((0, 0) :: s.row.writes)
    exact List.pairwise_cons.mpr
      ⟨fun p _ => ⟨Nat.zero_le _, Nat.zero_le _⟩, hpw⟩
  · intro p hp
    have hp2 : p = (0, 0) ∨ p ∈ s.row.writes := List.mem_cons.mp hp
    show p.1 + p.2 ≤ s.row.total_items
    rw [hti]
    rcases hp2 with hp2 | hp2
    · subst hp2
      simp
    · exact (hall p hp2).2.2
  · show s.counted + s.failed = items.length
    omega
  · show s.errors.length = s.failed
    omega
  · show (if s.failed = 0 then "completed" else "partial_success")
        = "completed" ↔ s.failed = 0
    by_cases hz : s.failed = 0 <;> simp [hz]
  · show (if s.failed = 0 then "completed" else "partial_success")
        = "completed" ∨
      (if s.failed = 0 then "completed" else "partial_success")
        = "partial_success"
    by_cases hz : s.failed = 0 <;> simp [hz]
  · rfl
  · exact hti
  · show s.row.completed_items + s.row.failed_items ≤ items.length
    exact hsum

/-- C9: for each of the four batch operations, the sequence of persisted
(completed_items, failed_items) pairs an external poll can observe — the
column defaults followed by every progress UPDATE, in order — is
monotonically non-decreasing in each component, and no persisted pair ever
exceeds `total_items` in sum. -/
theorem c9_batch_progress_monotone_bounded :
    (∀ (delete : Int → Except String Unit) (ids : List Int),
      List.Pairwise le2 (snapshots (batch_delete_accounts delete ids).row)
      ∧ ∀ p ∈ snapshots (batch_delete_accounts delete ids).row,
          p.1 + p.2 ≤ (batch_delete_accounts delete ids).row.total_items)
    ∧ (∀ (update : Int → String → Except String Unit) (ids : List Int)
        (status : String),
      List.Pairwise le2
        (snapshots (batch_update_status update ids status).row)
      ∧ ∀ p ∈ snapshots (batch_update_status update ids status).row,
          p.1 + p.2 ≤ (batch_update_status update ids status).row.total_items)
    ∧ (∀ (create : AccountData → Except String Unit) (xs : List AccountData),
      List.Pairwise le2 (snapshots (batch_create_accounts create xs).row)
      ∧ ∀ p ∈ snapshots (batch_create_accounts create xs).row,
          p.1 + p.2 ≤ (batch_create_accounts create xs).row.total_items)
    ∧ (∀ (create : CardData → Except String Unit) (xs : List CardData),
      List.Pairwise le2 (snapshots (batch_create_cards create xs).row)
      ∧ ∀ p ∈ snapshots (batch_create_cards create xs).row,
          p.1 + p.2 ≤ (batch_create_cards create xs).row.total_items) := by
  refine ⟨?_, ?_, ?_, ?_⟩
  · intro delete ids
    have h := finishBatch_facts (deleteStep_stepOk delete)
      "delete_accounts" ids
    obtain ⟨h1, h2, _⟩ := h
    exact ⟨h1, h2⟩
  · intro update ids status
    have h := finishBatch_facts (updateStatusStep_stepOk update status)
      "update_status" ids
    obtain ⟨h1, h2, _⟩ := h
    exact ⟨h1, h2⟩
  · intro create xs
    have h := finishBatch_facts (createAccountsStep_stepOk create)
      "create_accounts" xs.enum
    obtain ⟨h1, h2, _⟩ := h
    rw [List.enum_length] at h1 h2
    exact ⟨h1, h2⟩
  · intro create xs
    have h := finishBatch_facts (createCardsStep_stepOk create)
      "create_cards" xs.enum
    obtain ⟨h1, h2, _⟩ := h
    rw [List.enum_length] at h1 h2
    exact ⟨h1, h2⟩

/-- Collaborator of the C4 scenario: deleting accounts 3 and 7 raises,
every other delete succeeds. -/
def scenarioDelete : Int → Except String Unit :=
  fun account_id =>
    if account_id = 3 ∨ account_id = 7 then Except.error "Account not found"
    else Except.ok ()

/-- Item list of the C4 scenario. -/
def scenarioIds : List Int := [1, 2, 3, 4, 5, 6, 7, 8, 9, 10]

/-- C4: every batch operation finalizes with status `completed` precisely
when no item failed and `partial_success` otherwise, stamping
`completed_at`; every item is processed (successes plus failures exhaust
the list, so a per-item failure never aborts the loop) with one error line
per failure; an empty item list finalizes immediately as `completed`; and
the 10-item delete scenario with items 3 and 7 failing ends with 8
deleted, 2 failed, status `partial_success` and an errors list of
length 2. -/
theorem c4_batch_finalize :
    (∀ (delete : Int → Except String Unit) (ids : List Int),
      ((batch_delete_accounts delete ids).row.status = "completed"
        ↔ (batch_delete_accounts delete ids).failed = 0)
      ∧ ((batch_delete_accounts delete ids).row.status = "completed"
        ∨ (batch_delete_accounts delete ids).row.status = "partial_success")
      ∧ (batch_delete_accounts delete ids).row.completed_at = true
      ∧ (batch_delete_accounts delete ids).counted
          + (batch_delete_accounts delete ids).failed = ids.length
      ∧ (batch_delete_accounts delete ids).errors.length
          = (batch_delete_accounts delete ids).failed)
    ∧ (∀ (update : Int → String → Except String Unit) (ids : List Int)
        (status : String),
      ((batch_update_status update ids status).row.status = "completed"
        ↔ (batch_update_status update ids status).failed = 0)
      ∧ (batch_update_status update ids status).row.completed_at = true
      ∧ (batch_update_status update ids status).counted
          + (batch_update_status update ids status).failed = ids.length
      ∧ (batch_update_status update ids status).errors.length
          = (batch_update_status update ids status).failed)
    ∧ (∀ (create : AccountData → Except String Unit) (xs : List AccountData),
      ((batch_create_accounts create xs).row.status = "completed"
        ↔ (batch_create_accounts create xs).failed = 0)
      ∧ (batch_create_accounts create xs).row.completed_at = true
      ∧ (batch_create_accounts create xs).counted
          + (batch_create_accounts create xs).failed = xs.length
      ∧ (batch_create_accounts create xs).errors.length
          = (batch_create_accounts create xs).failed)
    ∧ (∀ (create : CardData → Except String Unit) (xs : List CardData),
      ((batch_create_cards create xs).row.status = "completed"
        ↔ (batch_create_cards create xs).failed = 0)
      ∧ (batch_create_cards create xs).row.completed_at = true
      ∧ (batch_create_cards create xs).counted
          + (batch_create_cards create xs).failed = xs.length
      ∧ (batch_create_cards create xs).errors.length
          = (batch_create_cards create xs).failed)
    ∧ (∀ delete : Int → Except String Unit,
        (batch_delete_accounts delete []).row.status = "completed"
        ∧ (batch_delete_accounts delete []).row.completed_at = true)
    ∧ (∀ create : AccountData → Except String Unit,
        (batch_create_accounts create []).row.status = "completed")
    ∧ (∀ create : CardData → Except String Unit,
        (batch_create_cards create []).row.status = "completed")
    ∧ (batch_delete_accounts scenarioDelete scenarioIds).counted = 8
    ∧ (batch_delete_accounts scenarioDelete scenarioIds).failed = 2
    ∧ (batch_delete_accounts scenarioDelete scenarioIds).row.status
        = "partial_success"
    ∧ (batch_delete_accounts scenarioDelete scenarioIds).errors.length
        = 2 := by
  refine ⟨?_, ?_, ?_, ?_, ?_, ?_, ?_, ?_, ?_, ?_, ?_⟩
  · intro delete ids
    have h := finishBatch_facts (deleteStep_stepOk delete)
      "delete_accounts" ids
    obtain ⟨_, _, hcnt, herr, hiff, hor, hca, _, _⟩ := h
    exact ⟨hiff, hor, hca, hcnt, herr⟩
  · intro update ids status
    have h := finishBatch_facts (updateStatusStep_stepOk update status)
      "update_status" ids
    obtain ⟨_, _, hcnt, herr, hiff, _, hca, _, _⟩ := h
    exact ⟨hiff, hca, hcnt, herr⟩
  · intro create xs
    have h := finishBatch_facts (createAccountsStep_stepOk create)
      "create_accounts" xs.enum
    obtain ⟨_, _, hcnt, herr, hiff, _, hca, _, _⟩ := h
    rw [List.enum_length] at hcnt hiff hca herr
    exact ⟨hiff, hca, hcnt, herr⟩
  · intro create xs
    have h := finishBatch_facts (createCardsStep_stepOk create)
      "create_cards" xs.enum
    obtain ⟨_, _, hcnt, herr, hiff, _, hca, _, _⟩ := h
    rw [List.enum_length] at hcnt hiff hca herr
    exact ⟨hiff, hca, hcnt, herr⟩
  · intro delete
    exact ⟨rfl, rfl⟩
  · intro create
    rfl
  · intro create
    rfl
  · rfl
  · rfl
  · rfl
  · rfl

/-- Account item with neither email nor cookies, the C1 failing input. -/
def emptyAccount : AccountData :=
  { email := none, password := none, cookies := none }

/-- Collaborator for the C1 run; it is never reached on the failing
input. -/
def okCreate : AccountData → Except String Unit := fun _ => Except.ok ()

/-- C1: evaluation at the failing input `[{}]` — one account with neither
email nor cookies.  The validation path increments `failed_count` and
`continue`s past the progress UPDATE, so the run finalizes the persisted
row as `partial_success` with `completed_items = 0` and `failed_items = 0`
while `total_items = 1`: the persisted row violates
`completed_items + failed_items == total_items` at the moment the
operation is finalized, although the in-memory counter (`failed = 1`)
knows of the failure. -/
theorem c1_finalize_equality_fails_on_validation_path :
    (batch_create_accounts okCreate [emptyAccount]).row.status
      = "partial_success"
    ∧ (batch_create_accounts okCreate [emptyAccount]).row.completed_at = true
    ∧ (batch_create_accounts okCreate [emptyAccount]).row.total_items = 1
    ∧ (batch_create_accounts okCreate [emptyAccount]).row.completed_items = 0
    ∧ (batch_create_accounts okCreate [emptyAccount]).row.failed_items = 0
    ∧ (batch_create_accounts okCreate [emptyAccount]).row.writes = []
    ∧ (batch_create_accounts okCreate [emptyAccount]).failed = 1 := by
  refine ⟨?_, ?_, ?_, ?_, ?_, ?_, ?_⟩ <;> rfl

theorem runLoop_eq_map (host : Host) :
    ∀ msgs : List (List (String × Json)), (∀ m ∈ msgs, m ≠ []) →
      runLoop host msgs = msgs.map (handle_request host)
  | [], _ => rfl
  | m :: rest, h => by
      have hm : m.isEmpty = false := by
        rcases m with _ | ⟨p, ms⟩
        · exact absurd rfl (h [] (List.mem_cons_self _ _))
        · rfl
      simp only [runLoop, hm, Bool.false_eq_true, if_false, List.map_cons]
      rw [runLoop_eq_map host rest
        (fun x hx => h x (List.mem_cons_of_mem _ hx))]

theorem handle_request_spec (host : Host) (m : List (String × Json)) :
    (handle_request host m).id = jGet m "id"
    ∧ (((handle_request host m).result.isSome
          ∧ (handle_request host m).err = none)
       ∨ ((handle_request host m).result = none
          ∧ (handle_request host m).err.isSome))
    ∧ ∀ e, dispatch host (jGet m "method") (paramsOf m) = Except.error e →
        (handle_request host m).result = none
        ∧ (handle_request host m).err = some ⟨-32603, e⟩ := by
  cases hd : dispatch host (jGet m "method") (paramsOf m) with
  | error e0 =>
      have hr : handle_request host m =
          { id := jGet m "id", result := none,
            err := some ⟨-32603, e0⟩ } := by
        unfold handle_request
        rw [hd]
      rw [hr]
      refine ⟨rfl, Or.inr ⟨rfl, by simp⟩, ?_⟩
      intro e he
      injection he with h1
      subst h1
      exact ⟨rfl, rfl⟩
  | ok v =>
      have hr : handle_request host m =
          { id := jGet m "id", result := some v, err := none } := by
        unfold handle_request
        rw [hd]
      rw [hr]
      refine ⟨rfl, Or.inl ⟨by simp, rfl⟩, ?_⟩
      intro e he
      exact absurd he (by simp)

/-- C2: over any finite stream of well-formed (non-empty-dict) requests the
loop produces exactly one response per request, in order; each response
carries the id of its request and exactly one of a result or an error
field; and a handler exception for any request turns into a `-32603` error
response for that request while every other request is handled by the same
per-message function, unaffected. -/
theorem c2_dispatcher_loop (host : Host)
    (msgs : List (List (String × Json))) (hwf : ∀ m ∈ msgs, m ≠ []) :
    runLoop host msgs = msgs.map (handle_request host)
    ∧ (runLoop host msgs).length = msgs.length
    ∧ (∀ m ∈ msgs,
        (handle_request host m).id = jGet m "id"
        ∧ (((handle_request host m).result.isSome
              ∧ (handle_request host m).err = none)
           ∨ ((handle_request host m).result = none
              ∧ (handle_request host m).err.isSome))
        ∧ ∀ e, dispatch host (jGet m "method") (paramsOf m)
              = Except.error e →
            (handle_request host m).result = none
            ∧ (handle_request host m).err = some ⟨-32603, e⟩) := by
  refine ⟨runLoop_eq_map host msgs hwf, ?_, ?_⟩
  · rw [runLoop_eq_map host msgs hwf]
    simp
  · intro m _
    exact handle_request_spec host m

/-- Handler that always raises, standing for a failing collaborator. -/
def raisingHandler : String → Json → Except String Json :=
  fun _ _ => Except.error "boom"

/-- Handler that always succeeds. -/
def okHandler : String → Json → Except String Json :=
  fun _ _ => Except.ok Json.null

/-- Host of the C2 witness: the accounts namespace raises, the rest
succeed. -/
def hostW : Host :=
  { accounts := raisingHandler, cards := okHandler, generator := okHandler,
    bypass := okHandler, proTrial := okHandler, exportSvc := okHandler,
    importSvc := okHandler, statusSvc := okHandler, batch := okHandler,
    system := okHandler }

/-- First request of the C2 witness; its handler raises. -/
def reqA : List (String × Json) :=
  [("jsonrpc", Json.str "2.0"), ("id", Json.num 1),
   ("method", Json.str "accounts.getAll"), ("params", Json.obj [])]

/-- Second request of the C2 witness; its handler succeeds. -/
def reqB : List (String × Json) :=
  [("jsonrpc", Json.str "2.0"), ("id", Json.num 2),
   ("method", Json.str "system.ping"), ("params", Json.obj [])]

/-- Witness for C2 at a concrete two-request stream whose first handler
raises. -/
theorem c2_dispatcher_loop_witness :
    (∀ m ∈ [reqA, reqB], m ≠ [])
    ∧ (runLoop hostW [reqA, reqB]
        = [reqA, reqB].map (handle_request hostW)
      ∧ (runLoop hostW [reqA, reqB]).length = [reqA, reqB].length
      ∧ (∀ m ∈ [reqA, reqB],
          (handle_request hostW m).id = jGet m "id"
          ∧ (((handle_request hostW m).result.isSome
                ∧ (handle_request hostW m).err = none)
             ∨ ((handle_request hostW m).result = none
                ∧ (handle_request hostW m).err.isSome))
          ∧ ∀ e, dispatch hostW (jGet m "method") (paramsOf m)
                = Except.error e →
              (handle_request hostW m).result = none
              ∧ (handle_request hostW m).err = some ⟨-32603, e⟩)) :=
  have hyp : ∀ m ∈ [reqA, reqB], m ≠ [] := by simp [reqA, reqB]
  ⟨hyp, c2_dispatcher_loop hostW [reqA, reqB] hyp⟩

/-- Counterexample to C3 as stated: a job callback that raises without
having touched the event log.  The wrapper catches the exception (it
returns normally), yet the event log after the wrapped invocation is still
empty — no record of the failed run was appended. -/
theorem c3_counterexample_no_event_record :
    (failingJob []).1 = Except.error "boom"
    ∧ safe_wrapper failingJob [] = (Except.ok (), []) :=
  ⟨rfl, rfl⟩

/-- C3 (amended): every exception a job callback raises is caught by
`_safe_wrapper` — the wrapped invocation always returns normally, so
nothing propagates to the scheduler control loop or to other jobs — and it
is only written to the process log: the wrapper leaves the event log
exactly as the callback left it, appending no failed-run record. -/
theorem c3_safe_wrapper_catches_and_logs_only :
    ∀ (cb : JobCallback) (events : List SyncEvent),
      (safe_wrapper cb events).1 = Except.ok ()
      ∧ (safe_wrapper cb events).2 = (cb events).2 := by
  intro cb events
  unfold safe_wrapper
  rcases cb events with ⟨out, es⟩
  cases out <;> exact ⟨rfl, rfl⟩

/-- C7: evaluation at the hostile frame whose 4 length bytes are
`ff ff ff ff`.  The frame reader decodes the little-endian length
4294967295 — far beyond any tens-of-megabytes bound — and, having no
upper-bound check, proceeds to consume that many bytes from the stream
instead of rejecting the frame; the general conjunct shows every 4-byte
length prefix is accepted this way. -/
theorem c7_read_message_has_no_length_bound :
    read_message [255, 255, 255, 255] = ReadMsg.msg 4294967295 []
    ∧ 100 * 1024 * 1024 < 4294967295
    ∧ ∀ (b0 b1 b2 b3 : Nat) (rest : List Nat),
        read_message (b0 :: b1 :: b2 :: b3 :: rest)
          = ReadMsg.msg (unpackLE b0 b1 b2 b3)
              (rest.take (unpackLE b0 b1 b2 b3)) := by
  refine ⟨by rfl, by decide, ?_⟩
  intro b0 b1 b2 b3 rest
  rfl

/-- C10: the schema initializer creates exactly the seven tables of the
source and never `sync_events`; consequently every Event Log operation run
against a freshly initialized database surfaces the storage error for the
missing table instead of returning a result. -/
theorem c10_fresh_schema_breaks_event_log :
    init_schema_tables
      = ["_metadata", "accounts", "cards", "bypass_tests", "bypass_results",
         "pro_trials", "batch_operations"]
    ∧ "sync_events" ∉ init_schema_tables
    ∧ (∀ (entity_type action : String) (entity_id : Option Int)
        (payload : Option String) (source : String) (now : Nat),
        record_event_sql freshDb entity_type action entity_id payload
            source now
          = Except.error "no such table: sync_events")
    ∧ (∀ (after_id : Option Int) (limit : Int),
        get_events_sql freshDb after_id limit
          = Except.error "no such table: sync_events")
    ∧ (∀ cutoff : Nat,
        prune_sql freshDb cutoff
          = Except.error "no such table: sync_events") := by
  refine ⟨rfl, by decide, ?_, ?_, ?_⟩
  · intro entity_type action entity_id payload source now
    rfl
  · intro after_id limit
    rfl
  · intro cutoff
    rfl

theorem mergeVal_none (bv : Option Json) :
    mergeVal bv none
      = (match bv with | some v => v | none => Json.null) := by
  cases bv with
  | none => rfl
  | some v => cases v <;> rfl

theorem mergeVal_some_bool (bv : Option Json) (b : Bool) :
    mergeVal bv (some (Json.bool b)) = Json.bool b := by
  cases bv with
  | none => rfl
  | some v => cases v <;> rfl

theorem merge_single_bool_preserves
    (base : List (String × Json)) (key : String) (b : Bool) :
    ∀ k, k ≠ key →
      lookupJ (merge_dicts base [(key, Json.bool b)]) k = lookupJ base k := by
  intro k hk
  rw [lookupJ_merge_dicts]
  have hupd : lookupJ [(key, Json.bool b)] k = none := by
    have hne : ¬(key = k) := fun h => hk h.symm
    simp [lookupJ, hne]
  by_cases hmem : k ∈ base.map Prod.fst
  · rw [if_pos (Or.inl hmem), hupd, mergeVal_none]
    rcases hlk : lookupJ base k with _ | v
    · exact absurd (lookupJ_eq_none.mp hlk) (by simpa using hmem)
    · rfl
  · have hnone : lookupJ base k = none := lookupJ_eq_none.mpr hmem
    have hcond : ¬(k ∈ base.map Prod.fst
        ∨ k ∈ ([(key, Json.bool b)].map Prod.fst)) := by
      rintro (h | h)
      · exact hmem h
      · simp at h
        exact hk h
    rw [if_neg hcond, hnone]

/-- C8: globally disabling the scheduler empties the set of active timers
and leaves the registered factories and the whole persisted `jobs`
configuration — every key of the scheduler section other than the global
`enabled` flag, hence each job's `enabled` and `interval_minutes` —
unchanged. -/
theorem c8_global_disable_keeps_job_config :
    ∀ st : SchedulerState,
      (set_enabled st false).1.scheduled = []
      ∧ (set_enabled st false).1.factories = st.factories
      ∧ lookupJ (get_section (set_enabled st false).1.settings "scheduler")
            "jobs"
          = lookupJ (get_section st.settings "scheduler") "jobs"
      ∧ ∀ k, k ≠ "enabled" →
          lookupJ (get_section (set_enabled st false).1.settings "scheduler")
              k
            = lookupJ (get_section st.settings "scheduler") k := by
  intro st
  have hsect :
      get_section
          (update_section st.settings "scheduler"
            [("enabled", Json.bool false)]) "scheduler"
        = merge_dicts (get_section st.settings "scheduler")
            [("enabled", Json.bool false)] := by
    unfold update_section get_section
    rw [lookupJ_setKey]
    simp
  have henabled :
      lookupJ (merge_dicts (get_section st.settings "scheduler")
          [("enabled", Json.bool false)]) "enabled"
        = some (Json.bool false) := by
    rw [lookupJ_merge_dicts]
    rw [if_pos (Or.inr (by simp))]
    have hupd : lookupJ [("enabled", Json.bool false)] "enabled"
        = some (Json.bool false) := by
      simp [lookupJ]
    rw [hupd, mergeVal_some_bool]
  have hstate : (set_enabled st false).1
      = { settings := update_section st.settings "scheduler"
            [("enabled", Json.bool false)],
          factories := st.factories, scheduled := [] } := by
    simp only [set_enabled, sync_jobs_from_settings]
    rw [hsect, henabled]
    rfl
  refine ⟨?_, ?_, ?_, ?_⟩
  · rw [hstate]
  · rw [hstate]
  · rw [hstate]
    show lookupJ (get_section (update_section st.settings "scheduler"
      [("enabled", Json.bool false)]) "scheduler") "jobs" = _
    rw [hsect]
    exact merge_single_bool_preserves _ "enabled" false "jobs" (by decide)
  · intro k hk
    rw [hstate]
    show lookupJ (get_section (update_section st.settings "scheduler"
      [("enabled", Json.bool false)]) "scheduler") k = _
    rw [hsect]
    exact merge_single_bool_preserves _ "enabled" false k hk

/-- Filter the WHERE clause of `get_events` applies to a row: no clause for
a falsy `after_id` (None and 0), otherwise `id > after_id`. -/
def matchesAfter (after_id : Option Int) (e : SyncEvent) : Bool :=
  match after_id with
  | some a => if a ≠ 0 then decide (a < (e.id : Int)) else true
  | none => true

/-- Well-formed event-log storage: rows in strictly increasing id order
(append-only, ids assigned by a monotone allocator) below the next id. -/
def EventLog.wf (log : EventLog) : Prop :=
  List.Pairwise (fun a b => a.id < b.id) log.rows
  ∧ ∀ e ∈ log.rows, e.id < log.nextId

theorem get_events_events (log : EventLog) (after_id : Option Int)
    (limit : Int) :
    (get_events log after_id limit).1
      = (log.rows.filter (matchesAfter after_id)).take
          (if limit ≤ 0 then (50 : Int) else limit).toNat := by
  unfold get_events
  cases after_id with
  | none =>
      rw [show matchesAfter none = fun _ => true from funext fun e => rfl,
        List.filter_true]
  | some a =>
      dsimp only
      by_cases ha : a ≠ 0
      · rw [if_pos ha,
          show matchesAfter (some a) = fun e => decide (a < (e.id : Int))
            from funext fun e => by simp [matchesAfter, ha]]
      · rw [if_neg ha,
          show matchesAfter (some a) = fun _ => true
            from funext fun e => by simp [matchesAfter, ha],
          List.filter_true]

/-- C6 (amended): the listing returns only stored events and, for a truthy
cursor, only events with `id > after_id`, in strictly ascending id order,
capped at the effective limit; `record_event` hands out `nextId`, strictly
above every stored id, and preserves well-formedness, so successive records
get strictly increasing ids; and two listings with the same `after_id`
separated by exactly one `record_event` differ by exactly the appended
event provided the matching events number fewer than the effective limit
and the cursor does not exceed every assigned id. -/
theorem c6_event_log_listing (log : EventLog) (after_id : Option Int)
    (limit : Int) (hwf : log.wf) :
    (∀ e ∈ (get_events log after_id limit).1,
      e ∈ log.rows ∧ ∀ a, after_id = some a → a ≠ 0 → a < (e.id : Int))
    ∧ (get_events log after_id limit).1.length
        ≤ (if limit ≤ 0 then (50 : Int) else limit).toNat
    ∧ List.Pairwise (fun x y => x.id < y.id) (get_events log after_id limit).1
    ∧ (∀ (et act : String) (eid : Option Int) (pl : Option String)
        (src : String) (now : Nat),
        (record_event log et act eid pl src now).2 = log.nextId
        ∧ (∀ e ∈ log.rows, e.id < (record_event log et act eid pl src now).2)
        ∧ (record_event log et act eid pl src now).1.wf)
    ∧ ((log.rows.filter (matchesAfter after_id)).length
          < (if limit ≤ 0 then (50 : Int) else limit).toNat →
      (∀ a, after_id = some a → a < (log.nextId : Int)) →
      ∀ (et act : String) (eid : Option Int) (pl : Option String)
        (src : String) (now : Nat),
        (get_events (record_event log et act eid pl src now).1
            after_id limit).1
          = (get_events log after_id limit).1
            ++ [{ id := log.nextId, entity_type := et, entity_id := eid,
                  action := act, source := src, payload := pl,
                  created_at := now }]) := by
  obtain ⟨hpw, hlt⟩ := hwf
  refine ⟨?_, ?_, ?_, ?_, ?_⟩
  · intro e he
    rw [get_events_events] at he
    have hf : e ∈ log.rows.filter (matchesAfter after_id) :=
      List.take_subset _ _ he
    have hmem : e ∈ log.rows := (List.filter_sublist _).subset hf
    have hmatch : matchesAfter after_id e = true :=
      List.of_mem_filter hf
    refine ⟨hmem, ?_⟩
    intro a ha hne
    subst ha
    simpa [matchesAfter, hne] using hmatch
  · rw [get_events_events]
    exact List.length_take_le _ _
  · rw [get_events_events]
    exact hpw.sublist
      ((List.take_sublist _ _).trans (List.filter_sublist _))
  · intro et act eid pl src now
    refine ⟨rfl, fun e he => hlt e he, ?_, ?_⟩
    · show List.Pairwise _ (log.rows ++ [_])
      rw [List.pairwise_append]
      refine ⟨hpw, List.pairwise_singleton _ _, ?_⟩
      intro a ha b hb
      simp only [List.mem_singleton] at hb
      subst hb
      exact hlt a ha
    · intro e he
      show e.id < log.nextId + 1
      simp only [record_event, List.mem_append, List.mem_singleton] at he
      rcases he with he | he
      · exact Nat.lt_succ_of_lt (hlt e he)
      · subst he
        exact Nat.lt_succ_self _
  · intro hshort hcursor et act eid pl src now
    rw [get_events_events, get_events_events]
    have hrows : (record_event log et act eid pl src now).1.rows
        = log.rows ++
          [{ id := log.nextId, entity_type := et, entity_id := eid,
             action := act, source := src, payload := pl,
             created_at := now }] := rfl
    rw [hrows, List.filter_append]
    have hnew : matchesAfter after_id
        { id := log.nextId, entity_type := et, entity_id := eid,
          action := act, source := src, payload := pl,
          created_at := now } = true := by
      cases after_id with
      | none => rfl
      | some a =>
          by_cases ha : a ≠ 0
          · simp only [matchesAfter]
            rw [if_pos ha]
            exact decide_eq_true (hcursor a rfl)
          · simp [matchesAfter, ha]
    rw [show List.filter (matchesAfter after_id)
        [{ id := log.nextId, entity_type := et, entity_id := eid,
           action := act, source := src, payload := pl,
           created_at := now }]
      = [{ id := log.nextId, entity_type := et, entity_id := eid,
           action := act, source := src, payload := pl,
           created_at := now }] from by simp [hnew]]
    rw [List.take_of_length_le (by
      simp only [List.length_append, List.length_singleton]
      omega)]
    rw [List.take_of_length_le (Nat.le_of_lt hshort)]

/-- Stored event of the C6 concrete states. -/
def ev1 : SyncEvent :=
  { id := 1, entity_type := "account", entity_id := some 5,
    action := "create", source := "backend", payload := none,
    created_at := 0 }

/-- Event log holding exactly `ev1`, next id 2. -/
def log1 : EventLog := { rows := [ev1], nextId := 2 }

/-- Witness for C6 at a concrete well-formed log. -/
theorem c6_event_log_listing_witness :
    log1.wf
    ∧ ((∀ e ∈ (get_events log1 none 5).1,
        e ∈ log1.rows ∧ ∀ a, (none : Option Int) = some a → a ≠ 0
          → a < (e.id : Int))
      ∧ (get_events log1 none 5).1.length
          ≤ (if (5 : Int) ≤ 0 then (50 : Int) else 5).toNat
      ∧ List.Pairwise (fun x y => x.id < y.id) (get_events log1 none 5).1
      ∧ (∀ (et act : String) (eid : Option Int) (pl : Option String)
          (src : String) (now : Nat),
          (record_event log1 et act eid pl src now).2 = log1.nextId
          ∧ (∀ e ∈ log1.rows,
              e.id < (record_event log1 et act eid pl src now).2)
          ∧ (record_event log1 et act eid pl src now).1.wf)
      ∧ ((log1.rows.filter (matchesAfter none)).length
            < (if (5 : Int) ≤ 0 then (50 : Int) else 5).toNat →
        (∀ a, (none : Option Int) = some a → a < (log1.nextId : Int)) →
        ∀ (et act : String) (eid : Option Int) (pl : Option String)
          (src : String) (now : Nat),
          (get_events (record_event log1 et act eid pl src now).1
              none 5).1
            = (get_events log1 none 5).1
              ++ [{ id := log1.nextId, entity_type := et, entity_id := eid,
                    action := act, source := src, payload := pl,
                    created_at := now }])) :=
  have hwf : log1.wf := ⟨by decide, by decide⟩
  ⟨hwf, c6_event_log_listing log1 none 5 hwf⟩

/-- Counterexample to C6 as stated: with one stored event and `limit = 1`,
a `record_event` between two listings with the same (falsy) `after_id`
leaves the two listings identical — they differ by nothing, not by the
newly appended event, because the limit truncates the result. -/
theorem c6_counterexample_truncated_listing :
    (get_events log1 none 1).1 = [ev1]
    ∧ (record_event log1 "account" "update" none none "backend" 1).2 = 2
    ∧ (get_events
        (record_event log1 "account" "update" none none "backend" 1).1
        none 1).1 = [ev1] :=
  ⟨rfl, rfl, rfl⟩
